import Mathlib

/-!
Verification of the `quantum-optimization-feature-selection` repository.

The embedding covers the two source files:
  * `src/qso/plot/runs.py` — the run-log reader (`ExperimentRun`),
  * `src/qso/problem/feature_selection.py` — objective matrix, QUBO
    Hamiltonian, ansatz and the `FeatureSelectionProblem` sampling loop.

Machine floats are idealised as exact real numbers; JSON integers are `ℤ`,
rationals `ℚ` where the data is discrete.  Fallible Python code (exceptions)
is embedded with `Except String`.
-/

namespace QSO

/-! ## Run-log reader: `src/qso/plot/runs.py` -/

/-- A Python literal value, the possible results of `ast.literal_eval` on the
literal expressions the run logs use (numbers and nested lists of them). -/
inductive LitValue where
  | num (q : ℚ)
  | list (elems : List LitValue)

/-- Drop leading spaces. -/
def skipWs : List Char → List Char
  | ' ' :: cs => skipWs cs
  | cs => cs

/-- Value of a digit string. -/
def digitsToNat (ds : List Char) : ℕ :=
  ds.foldl (fun a c => 10 * a + (c.toNat - 48)) 0

/-- Parse a decimal number (optional sign, integer part, optional fractional
part), returning its exact rational value and the remaining input. -/
def parseNumber (cs : List Char) : Option (ℚ × List Char) :=
  let (neg, cs1) : Bool × List Char :=
    match cs with
    | '-' :: rest => (true, rest)
    | _ => (false, cs)
  let intDigits := cs1.takeWhile Char.isDigit
  let cs2 := cs1.dropWhile Char.isDigit
  if intDigits.isEmpty then none
  else
    let (fracDigits, cs3) : List Char × List Char :=
      match cs2 with
      | '.' :: rest => (rest.takeWhile Char.isDigit, rest.dropWhile Char.isDigit)
      | _ => ([], cs2)
    let mag : ℚ := (digitsToNat intDigits : ℚ) +
      (digitsToNat fracDigits : ℚ) / ((10 : ℚ) ^ fracDigits.length)
    some (if neg then -mag else mag, cs3)

mutual

/-- Fuel-indexed recursive-descent reading of one literal expression. -/
def parseVal : ℕ → List Char → Option (LitValue × List Char)
  | 0, _ => none
  | fuel + 1, cs =>
    match skipWs cs with
    | '[' :: rest =>
      match skipWs rest with
      | ']' :: rest2 => some (.list [], rest2)
      | rest2 =>
        match parseElems fuel rest2 with
        | some (vs, rest3) => some (.list vs, rest3)
        | none => none
    | cs1 =>
      match parseNumber cs1 with
      | some (q, rest) => some (.num q, rest)
      | none => none

/-- Fuel-indexed reading of a non-empty comma-separated element list followed
by a closing bracket. -/
def parseElems : ℕ → List Char → Option (List LitValue × List Char)
  | 0, _ => none
  | fuel + 1, cs =>
    match parseVal fuel cs with
    | some (v, rest) =>
      match skipWs rest with
      | ',' :: rest2 =>
        match parseElems fuel rest2 with
        | some (vs, rest3) => some (v :: vs, rest3)
        | none => none
      | ']' :: rest2 => some ([v], rest2)
      | _ => none
    | none => none

end

/-- Model of `ast.literal_eval` on the run logs' literal grammar: parses the
whole string as one literal expression, `none` on anything that is not one
(it is a literal-syntax reader by construction, never an evaluator). -/
def literalEval (s : String) : Option LitValue :=
  match parseVal (s.length + 1) s.data with
  | some (v, rest) => if (skipWs rest).isEmpty then some v else none
  | none => none

/-- One iteration record as it appears in the JSON log: `params` may still be
a string to be decoded (`Sum.inl`) or already a literal value (`Sum.inr`). -/
structure RawIteration where
  cost : ℚ
  params : String ⊕ LitValue
  samples : ℤ
  shots_per_hamiltonians : ℤ

/-- One iteration record after `ExperimentRun.__init__` has decoded `params`. -/
structure Iteration where
  cost : ℚ
  params : LitValue
  samples : ℤ
  shots_per_hamiltonians : ℤ

/-- The top-level run-log record as loaded from JSON. -/
structure RawRun where
  run_number : ℤ
  log_file : String
  iterations : List RawIteration

/-- `ExperimentRun` after construction. -/
structure ExperimentRun where
  run_number : ℤ
  log_file : String
  iterations : List Iteration

/-- The `params` decoding step of `ExperimentRun.__init__`: a string-valued
`params` is decoded with the literal reader, failing on a malformed string. -/
def decodeIteration (it : RawIteration) : Except String Iteration :=
  match it.params with
  | .inl s =>
    match literalEval s with
    | some v => .ok ⟨it.cost, v, it.samples, it.shots_per_hamiltonians⟩
    | none => .error "malformed literal in params"
  | .inr v => .ok ⟨it.cost, v, it.samples, it.shots_per_hamiltonians⟩

/-- `ExperimentRun.__init__`: keep the top-level attributes, decode every
string-valued `params`; the first malformed string aborts construction. -/
def experimentRunInit (raw : RawRun) : Except String ExperimentRun :=
  (raw.iterations.mapM decodeIteration).map
    (fun its => ⟨raw.run_number, raw.log_file, its⟩)

/-- `True` exactly on the error branch of an `Except`. -/
def isErr : Except String α → Bool
  | .error _ => true
  | .ok _ => false

/-- Running sum (`np.cumsum`) with an explicit accumulator. -/
def cumsumFrom : ℤ → List ℤ → List ℤ
  | _, [] => []
  | acc, x :: xs => (acc + x) :: cumsumFrom (acc + x) xs

/-- `np.cumsum` on a list of integers. -/
def cumsum (l : List ℤ) : List ℤ := cumsumFrom 0 l

/-- `ExperimentRun.get_x_axis`: the iteration axis `0..len-1`, the cumulative
shot axis, or an invalid-argument error naming the offending value. -/
def get_x_axis (run : ExperimentRun) (axis_type : String) : Except String (List ℤ) :=
  if axis_type = "iterations" then
    .ok ((List.range run.iterations.length).map Int.ofNat)
  else if axis_type = "shots" then
    .ok (cumsum (run.iterations.map
      (fun i => i.samples * i.shots_per_hamiltonians)))
  else
    .error ("Invalid axis type, got " ++ axis_type)

/-! ## Feature selection problem: `src/qso/problem/feature_selection.py`

Float arrays are idealised as exact real data.  A 2-D array is a structure
carrying its shape together with a total entry function (entries outside the
shape are irrelevant padding). -/

/-- A 2-D numeric array with explicit shape. -/
structure NDArray where
  rows : ℕ
  cols : ℕ
  entry : ℕ → ℕ → ℝ

/-- Column `j` of a row-major list-of-rows data matrix (`rowvar=False`:
variables are columns). -/
def dataCol (fd : List (List ℝ)) (j : ℕ) : List ℝ :=
  fd.map (fun row => row.getD j 0)

/-- Number of variables (columns) of list-of-rows data. -/
def dataWidth (fd : List (List ℝ)) : ℕ := (fd.headD []).length

/-- Arithmetic mean of a sample. -/
noncomputable def sampleMean (x : List ℝ) : ℝ := x.sum / x.length

/-- Sample covariance of two aligned samples (`np.cov` normalisation by
`N - 1`; the normalisation cancels inside a correlation coefficient). -/
noncomputable def sampleCov (x y : List ℝ) : ℝ :=
  ((x.zip y).map (fun p => (p.1 - sampleMean x) * (p.2 - sampleMean y))).sum /
    ((x.length : ℝ) - 1)

/-- Pearson correlation coefficient of two samples, as `np.corrcoef` computes
it: covariance over the product of standard deviations. -/
noncomputable def corrcoef (x y : List ℝ) : ℝ :=
  sampleCov x y / (Real.sqrt (sampleCov x x) * Real.sqrt (sampleCov y y))

/-- `objective_matrix(feature_data, response_data, alpha)`:
`pre_objective = np.corrcoef(feature_data, response_data, rowvar=False)` is
the `(k+1) × (k+1)` correlation matrix of the feature columns plus the
response; the body is `|pre_objective[:-1, :-1]| * (1 - alpha)` minus
`alpha * diagflat(|pre_objective[-1, :-1]|)`. -/
noncomputable def objective_matrix (feature_data : List (List ℝ))
    (response_data : List ℝ) (alpha : ℝ) : NDArray where
  rows := dataWidth feature_data
  cols := dataWidth feature_data
  entry := fun a b =>
    |corrcoef (dataCol feature_data a) (dataCol feature_data b)| * (1 - alpha) -
      (if a = b then
        alpha * |corrcoef response_data (dataCol feature_data a)|
      else 0)

/-- A Pauli word as the QUBO builder and the ansatz emit them. -/
inductive PauliOp where
  | z (wire : ℕ)
  | zz (wire1 wire2 : ℕ)
  | x (wire : ℕ)
deriving DecidableEq

/-- `j = objective / 4.` -/
noncomputable def quboJ (objective : NDArray) (m j : ℕ) : ℝ :=
  objective.entry m j / 4

/-- `h = -objective.sum(axis=0) / 2.` — `axis=0` sums over the row index, so
`h[m]` is minus half the sum of column `m`. -/
noncomputable def quboH (objective : NDArray) (m : ℕ) : ℝ :=
  -(∑ i in Finset.range objective.rows, objective.entry i m) / 2

/-- The index pairs visited by the double loop
`for m in range(n): for n in range(n): ...` of `qubo_hamiltonian`, with the
Python scoping reproduced exactly: the inner loop variable `n` shadows the
size `n`, so each outer iteration after the first re-evaluates `range(n)`
with the value the inner variable was left holding (one less than before,
unless the previous inner range was empty). -/
def quboPairsAux : List ℕ → ℕ → List (ℕ × ℕ)
  | [], _ => []
  | m :: ms, nv => ((List.range nv).map (fun j => (m, j))) ++ quboPairsAux ms (nv - 1)

/-- All `(m, n)` pairs the loop body of `qubo_hamiltonian` runs on, for an
objective of size `n`. -/
def quboPairs (n : ℕ) : List (ℕ × ℕ) := quboPairsAux (List.range n) n

/-- The `(coefficient, term)` list `qubo_hamiltonian` accumulates before
simplification: `(j[m, n], Z m ⊗ Z n)` when `m ≠ n`, `(h[m], Z m)` when
`m = n`.  The Python code appends to two parallel lists; they are kept
zipped here. -/
noncomputable def quboTerms (objective : NDArray) : List (ℝ × PauliOp) :=
  (quboPairs objective.rows).map (fun p =>
    if p.1 ≠ p.2 then (quboJ objective p.1 p.2, .zz p.1 p.2)
    else (quboH objective p.1, .z p.1))

/-- A Hamiltonian: a weighted sum of Pauli words. -/
structure Hamiltonian where
  terms : List (ℝ × PauliOp)

/-- Wire-order normalisation used when merging the two orderings of a
`Z ⊗ Z` term. -/
def canonicalOp : PauliOp → PauliOp
  | .zz a b => .zz (min a b) (max a b)
  | op => op

/-- Add one term into an accumulated term list, merging it into an existing
term acting on the same wires. -/
def addTerm (acc : List (ℝ × PauliOp)) (t : ℝ × PauliOp) : List (ℝ × PauliOp) :=
  match acc with
  | [] => [(t.1, canonicalOp t.2)]
  | (c, op) :: rest =>
    if op = canonicalOp t.2 then (c + t.1, op) :: rest
    else (c, op) :: addTerm rest t

/-- Models `qml.Hamiltonian(...).simplify()` (external library): coefficients
of equal operators (both orderings of a two-qubit `Z ⊗ Z` term denote the
same operator) are combined. -/
def simplifyTerms (terms : List (ℝ × PauliOp)) : List (ℝ × PauliOp) :=
  terms.foldl addTerm []

/-- Modelled from the spec: `check_ndarray(name, array, shape)` from
`qso.utils.validation` is not under `src/`; per the spec it is "a
shape-validator `check_ndarray(name, array, shape)` that fails with a
descriptive error on mismatch". -/
def check_ndarray (name : String) (arr : NDArray) (shape : ℕ × ℕ) :
    Except String Unit :=
  if (arr.rows, arr.cols) = shape then .ok ()
  else .error (name ++ " has unexpected shape")

/-- Modelled from the spec: the 1-D form of the same shape validator, used
for `response_data` with `shape=(n,)`. -/
def check_ndarray_vec (name : String) (v : List ℝ) (len : ℕ) :
    Except String Unit :=
  if v.length = len then .ok ()
  else .error (name ++ " has unexpected shape")

/-- `qubo_hamiltonian(objective)`: validates that the objective is square
(`shape=(n, n)` with `n = objective.shape[0]`), runs the double loop, and
returns the simplified Hamiltonian. -/
noncomputable def qubo_hamiltonian (objective : NDArray) :
    Except String Hamiltonian :=
  match check_ndarray "objective" objective (objective.rows, objective.rows) with
  | .error e => .error e
  | .ok _ => .ok ⟨simplifyTerms (quboTerms objective)⟩

/-! ### Ansatz (`feature_selection_ansatz`) -/

/-- A gate as the state-preparation circuit records them. -/
inductive Gate where
  | pauliX (wire : ℕ)
  | hadamard (wire : ℕ)
  | approxTimeEvolution (h : Hamiltonian) (time : ℝ) (steps : ℕ)
  | commutingEvolution (h : Hamiltonian) (time : ℝ)

/-- Models `pennylane.qaoa.x_mixer(range(n_var))` (external library): the sum
of a unit-coefficient `PauliX` on every wire. -/
def x_mixer (n_var : ℕ) : Hamiltonian :=
  ⟨(List.range n_var).map (fun w => ((1 : ℝ), .x w))⟩

/-- Modelled from the spec: `hamiltonian_ansatz(params, 'z', 'z', n_var)`
from `qso.utils.ansatz` is not under `src/`; per the spec it builds the
problem Hamiltonian "via a fixed ansatz-construction rule over Pauli-Z
operators" from the remaining parameters, and the circuit must fail on a
parameter vector of any length other than `2*n_layers + 2*n_var - 1`, so it
consumes exactly the `2*n_var - 1` remaining entries (one single-`Z` term per
variable and one `Z ⊗ Z` chain term per adjacent pair) and fails on any other
count. -/
def hamiltonian_ansatz (params : List ℝ) (n_var : ℕ) :
    Except String Hamiltonian :=
  if (params.length : ℤ) = 2 * (n_var : ℤ) - 1 then
    .ok ⟨(params.take n_var).zip ((List.range n_var).map .z) ++
         (params.drop n_var).zip
           ((List.range (n_var - 1)).map (fun i => .zz i (i + 1)))⟩
  else .error "hamiltonian_ansatz: wrong number of parameters"

/-- Models `Array.reshape(r, 2)` on the sliced parameter vector: a jax
reshape fails unless the array holds exactly `r * c` entries. -/
def reshape2 (l : List ℝ) (r c : ℕ) : Except String (List (List ℝ)) :=
  if l.length = r * c then
    .ok ((List.range r).map (fun i => (l.drop (i * c)).take c))
  else .error "cannot reshape"

/-- `qaoa_layer(times, params)`: a problem-Hamiltonian time evolution
(trotterized) followed by the mixer evolution. -/
def qaoa_layer (n_var trotter_steps : ℕ) (times : List ℝ) (params : List ℝ) :
    Except String (List Gate) :=
  match hamiltonian_ansatz params n_var with
  | .error e => .error e
  | .ok h =>
    .ok [.approxTimeEvolution h (times.getD 0 0) trotter_steps,
         .commutingEvolution (x_mixer n_var) (times.getD 1 0)]

/-- Models `qml.layer(template, depth, times, params=params)` (external
library): the template runs once per layer, fed the layer's row of the
positional `times` argument and the keyword `params` unchanged. -/
def qml_layer (template : List ℝ → List ℝ → Except String (List Gate)) :
    ℕ → List (List ℝ) → List ℝ → Except String (List Gate)
  | 0, _, _ => .ok []
  | d + 1, times, params =>
    match template (times.headD []) params with
    | .error e => .error e
    | .ok g =>
      match qml_layer template d times.tail params with
      | .error e => .error e
      | .ok gs => .ok (g ++ gs)

/-- `state_circuit(params)`: `PauliX` and `Hadamard` on every wire, then
`times = params[:2 * n_layers].reshape(n_layers, 2)`,
`params = params[2 * n_layers:]`, and
`qml.layer(qaoa_layer, n_layers, times, params=params)`. -/
def state_circuit (n_var n_layers trotter_steps : ℕ) (params : List ℝ) :
    Except String (List Gate) :=
  let init := (List.range n_var).flatMap (fun w => [Gate.pauliX w, Gate.hadamard w])
  match reshape2 (params.take (2 * n_layers)) n_layers 2 with
  | .error e => .error e
  | .ok times =>
    match qml_layer (qaoa_layer n_var trotter_steps) n_layers times
        (params.drop (2 * n_layers)) with
    | .error e => .error e
    | .ok layers => .ok (init ++ layers)

/-- `feature_selection_ansatz(n_var, n_layers, trotter_steps)`: the free
parameter count `2 * n_layers + 2 * n_var - 1` (a Python integer, hence `ℤ`)
together with the state-preparation procedure. -/
def feature_selection_ansatz (n_var : ℕ) (n_layers : ℕ := 5)
    (trotter_steps : ℕ := 5) : ℤ × (List ℝ → Except String (List Gate)) :=
  (2 * (n_layers : ℤ) + 2 * (n_var : ℤ) - 1,
   state_circuit n_var n_layers trotter_steps)

/-! ### `FeatureSelectionProblem` -/

/-- The state of a `FeatureSelectionProblem` instance.  `n` and `k` are the
shape fields set by `__init__`; the PRNG key is a `jax` key, modelled as a
natural number. -/
structure FeatureSelectionProblem where
  feature_data : List (List ℝ)
  response_data : List ℝ
  alpha : ℝ
  key : ℕ
  n : ℕ
  k : ℕ

/-- Models `jax.random.split(key)` (external library): a deterministic split
of a PRNG key into two subkeys; labelling the derivation tree injectively
models the distinctness of jax's derived keys. -/
def prng_split (key : ℕ) : ℕ × ℕ := (2 * key + 1, 2 * key + 2)

/-- Modelled from the spec: the index stream of the bootstrap resampler
(`qso.utils.resample_data` is not under `src/`): a fixed deterministic
function of the key choosing, for each draw, a row index below `len`. -/
def bootstrapIndex (key i len : ℕ) : ℕ := (key * 31 + i * 17 + 7) % len

/-- Modelled from the spec: `resample_data(X, y, samples, key)` from
`qso.utils` is not under `src/`; per the spec it is "a resampler
`(X, y, samples, key) -> (X', y')`" that "bootstraps (resamples with
replacement, count = N) the paired feature/response data using" the key:
it draws `samples` row indices from the key and takes the same rows of `X`
and `y`. -/
def resample_data (x : List (List ℝ)) (y : List ℝ) (samples : ℕ) (key : ℕ) :
    List (List ℝ) × List ℝ :=
  let idx := (List.range samples).map (fun i => bootstrapIndex key i x.length)
  (idx.map (fun ix => x.getD ix []), idx.map (fun ix => y.getD ix 0))

/-- `FeatureSelectionProblem.__init__`: stores the data, `alpha` and the key,
asserts that `feature_data` is 2-dimensional (a rectangular `(n, k)` array),
reads off `n, k = feature_data.shape`, and validates
`check_ndarray("response_data", response_data, shape=(n,))`. -/
def problem_init (feature_data : List (List ℝ)) (response_data : List ℝ)
    (alpha : ℝ) (key : ℕ) : Except String FeatureSelectionProblem :=
  if feature_data.all (fun row => row.length = dataWidth feature_data) then
    let n := feature_data.length
    let k := dataWidth feature_data
    match check_ndarray_vec "response_data" response_data n with
    | .error e => .error e
    | .ok _ => .ok ⟨feature_data, response_data, alpha, key, n, k⟩
  else .error "Expected feature_data to have exactly 2 dimensions"

/-- `FeatureSelectionProblem.sample_hamiltonian`: replaces `self.key` with
the first subkey of the split, bootstraps the data with the second,
recomputes the objective matrix and returns its QUBO Hamiltonian.  The
updated instance state is the first component; a failure in the remaining
body (the `Except`) leaves the state exactly as the first component says. -/
noncomputable def sample_hamiltonian (p : FeatureSelectionProblem) :
    FeatureSelectionProblem × Except String Hamiltonian :=
  let ks := prng_split p.key
  let resampled := resample_data p.feature_data p.response_data p.n ks.2
  ({p with key := ks.1},
   qubo_hamiltonian (objective_matrix resampled.1 resampled.2 p.alpha))

/-- The sequence of Hamiltonians produced by `m` successive calls to
`sample_hamiltonian`, threading the instance state. -/
noncomputable def hamiltonianSeq (p : FeatureSelectionProblem) :
    ℕ → List (Except String Hamiltonian)
  | 0 => []
  | m + 1 =>
    (sample_hamiltonian p).2 :: hamiltonianSeq (sample_hamiltonian p).1 m

/-! ### Term counting and concrete fixtures -/

/-- Number of linear (single-`PauliZ`) entries of a term list. -/
def countLinear (l : List (ℝ × PauliOp)) : ℕ :=
  (l.filter (fun t => match t.2 with | .z _ => true | _ => false)).length

/-- Number of quadratic (`PauliZ ⊗ PauliZ`) entries of a term list. -/
def countQuadratic (l : List (ℝ × PauliOp)) : ℕ :=
  (l.filter (fun t => match t.2 with | .zz _ _ => true | _ => false)).length

/-- The all-ones square objective of size `n`. -/
def onesMatrix (n : ℕ) : NDArray := ⟨n, n, fun _ _ => 1⟩

/-- A concrete non-symmetric 2×2 objective: single 1 in position (0, 1). -/
def offDiagMatrix : NDArray := ⟨2, 2, fun i j => if i = 0 ∧ j = 1 then 1 else 0⟩

/-- A concrete 2×3 (non-square) array. -/
def nonSquareMatrix : NDArray := ⟨2, 3, fun _ _ => 1⟩

/-- A concrete two-iteration run log. -/
def sampleRun : ExperimentRun :=
  ⟨1, "log", [⟨0, .num 0, 1, 2⟩, ⟨0, .num 0, 2, 3⟩]⟩

/-- A degenerate dataset whose two rows (and response entries) coincide. -/
def constantProblem : FeatureSelectionProblem :=
  ⟨[[1], [1]], [0, 0], 0, 0, 2, 1⟩

/-! ## Theorems -/

theorem cumsumFrom_length (l : List ℤ) : ∀ a, (cumsumFrom a l).length = l.length := by
  induction l with
  | nil => intro a; rfl
  | cons x xs ih => intro a; simp [cumsumFrom, ih]

theorem cumsumFrom_chain (l : List ℤ) :
    ∀ a, (∀ x ∈ l, 0 ≤ x) → List.Chain' (· ≤ ·) (a :: cumsumFrom a l) := by
  induction l with
  | nil => intro a _; simp [cumsumFrom]
  | cons x xs ih =>
    intro a h
    rw [cumsumFrom]
    refine List.chain'_cons.2 ⟨?_, ih (a + x) ?_⟩
    · have := h x (by simp)
      linarith
    · intro y hy
      exact h y (by simp [hy])

theorem cumsumFrom_getLast? :
    ∀ (l : List ℤ) (a : ℤ), l ≠ [] → (cumsumFrom a l).getLast? = some (a + l.sum)
  | [], _, h => absurd rfl h
  | [x], a, _ => by simp [cumsumFrom]
  | x :: y :: ys, a, _ => by
    have ih := cumsumFrom_getLast? (y :: ys) (a + x) (by simp)
    show ((a + x) :: cumsumFrom (a + x) (y :: ys)).getLast? = _
    rw [show cumsumFrom (a + x) (y :: ys) =
          (a + x + y) :: cumsumFrom (a + x + y) ys from rfl] at ih ⊢
    rw [List.getLast?_cons_cons, ih]
    congr 1
    simp
    ring

/-- C8: for a run log whose iterations all have positive `samples` and
`shots_per_hamiltonians`, `get_x_axis('shots')` has one value per iteration,
is non-decreasing, and its last value is the total
`Σ samples × shots_per_hamiltonians`. -/
theorem get_x_axis_shots_spec (run : ExperimentRun) (ys : List ℤ)
    (hys : get_x_axis run "shots" = .ok ys)
    (hpos : ∀ it ∈ run.iterations,
      0 < it.samples ∧ 0 < it.shots_per_hamiltonians) :
    ys.length = run.iterations.length ∧ List.Chain' (· ≤ ·) ys ∧
      (run.iterations ≠ [] →
        ys.getLast? = some ((run.iterations.map
          (fun i => i.samples * i.shots_per_hamiltonians)).sum)) := by
  have hred : get_x_axis run "shots" = .ok (cumsum (run.iterations.map
      (fun i => i.samples * i.shots_per_hamiltonians))) := by
    simp [get_x_axis]
  rw [hred] at hys
  injection hys with h
  subst h
  have hnn : ∀ x ∈ run.iterations.map
      (fun i => i.samples * i.shots_per_hamiltonians), 0 ≤ x := by
    intro x hx
    rw [List.mem_map] at hx
    obtain ⟨it, hit, rfl⟩ := hx
    exact le_of_lt (mul_pos (hpos it hit).1 (hpos it hit).2)
  refine ⟨?_, ?_, ?_⟩
  · rw [cumsum, cumsumFrom_length, List.length_map]
  · exact (cumsumFrom_chain _ 0 hnn).tail
  · intro hne
    have hmne : run.iterations.map
        (fun i => i.samples * i.shots_per_hamiltonians) ≠ [] := by
      simpa using hne
    rw [cumsum, cumsumFrom_getLast? _ 0 hmne, zero_add]

theorem get_x_axis_shots_spec_witness :
    get_x_axis sampleRun "shots" = .ok [2, 8] ∧
    (∀ it ∈ sampleRun.iterations,
      0 < it.samples ∧ 0 < it.shots_per_hamiltonians) ∧
    (([2, 8] : List ℤ).length = sampleRun.iterations.length ∧
      List.Chain' (· ≤ ·) ([2, 8] : List ℤ) ∧
      (sampleRun.iterations ≠ [] →
        ([2, 8] : List ℤ).getLast? = some ((sampleRun.iterations.map
          (fun i => i.samples * i.shots_per_hamiltonians)).sum))) :=
  ⟨rfl, by decide,
   get_x_axis_shots_spec sampleRun [2, 8] rfl (by decide)⟩

/-- C9: a string-valued `params` field is decoded by the literal reader:
`"[1.0, 2.0]"` becomes the numeric pair `(1.0, 2.0)`, and a run whose
`params` string is not a literal expression (`"abc"`) makes construction
fail with a decode error. -/
theorem params_literal_decode :
    decodeIteration ⟨0, .inl "[1.0, 2.0]", 1, 1⟩ =
      .ok ⟨0, .list [.num 1, .num 2], 1, 1⟩ ∧
    isErr (experimentRunInit ⟨0, "", [⟨0, .inl "abc", 1, 1⟩]⟩) = true := by
  constructor
  · have h : decodeIteration ⟨0, .inl "[1.0, 2.0]", 1, 1⟩ =
        .ok ⟨0, .list [.num (((1 : ℕ) : ℚ) + ((0 : ℕ) : ℚ) / (10 : ℚ) ^ (1 : ℕ)),
                       .num (((2 : ℕ) : ℚ) + ((0 : ℕ) : ℚ) / (10 : ℚ) ^ (1 : ℕ))],
              1, 1⟩ := rfl
    rw [h]
    norm_num
  · rfl

/-- C1 (code bug): the loop of `qubo_hamiltonian` does not emit `n` linear
and `n(n-1)` quadratic terms.  The inner loop variable `n` shadows the size
`n`, so later inner ranges shrink: a 2×2 objective gets 1 linear term (not
2) and a 3×3 objective gets 4 quadratic terms (not 6).  The non-square shape
validation does fail, as the claim says. -/
theorem qubo_hamiltonian_term_count_bug :
    countLinear (quboTerms (onesMatrix 2)) = 1 ∧ (1 : ℕ) ≠ 2 ∧
    countQuadratic (quboTerms (onesMatrix 3)) = 4 ∧ (4 : ℕ) ≠ 3 * (3 - 1) ∧
    isErr (qubo_hamiltonian nonSquareMatrix) = true :=
  ⟨rfl, by decide, rfl, by decide, rfl⟩

/-- C2 counterexample: on the non-symmetric objective with a single 1 in
entry (0, 1), the loop assigns variable 0 the linear coefficient 0
(minus half its column sum), but minus half its row sum is −1/2. -/
theorem qubo_linear_coeff_not_neg_rowsum :
    ((0 : ℝ), PauliOp.z 0) ∈ quboTerms offDiagMatrix ∧
    (0 : ℝ) ≠ -(∑ j in Finset.range offDiagMatrix.cols,
      offDiagMatrix.entry 0 j) / 2 := by
  constructor
  · have h : quboTerms offDiagMatrix =
        [(quboH offDiagMatrix 0, .z 0), (quboJ offDiagMatrix 0 1, .zz 0 1),
         (quboJ offDiagMatrix 1 0, .zz 1 0)] := rfl
    have h0 : quboH offDiagMatrix 0 = 0 := by
      norm_num [quboH, offDiagMatrix, Finset.sum_range_succ]
    rw [h, h0]
    exact List.mem_cons_self _ _
  · have h1 : (∑ j in Finset.range offDiagMatrix.cols,
        offDiagMatrix.entry 0 j) = 1 := by
      norm_num [offDiagMatrix, Finset.sum_range_succ]
    rw [h1]
    norm_num

/-- C2 amended: every linear (single-`PauliZ`) term the loop emits for a
variable `m` carries the coefficient minus half the **column** sum of the
objective at `m` (`-objective.sum(axis=0)[m] / 2`). -/
theorem qubo_linear_coeff_is_neg_colsum (o : NDArray) (c : ℝ) (m : ℕ)
    (hmem : (c, PauliOp.z m) ∈ quboTerms o) :
    c = -(∑ i in Finset.range o.rows, o.entry i m) / 2 := by
  rw [quboTerms, List.mem_map] at hmem
  obtain ⟨p, _, hfp⟩ := hmem
  by_cases hpe : p.1 ≠ p.2
  · rw [if_pos hpe] at hfp
    exact absurd (congrArg Prod.snd hfp) (by simp)
  · rw [if_neg hpe] at hfp
    have hm : p.1 = m := by
      have := congrArg Prod.snd hfp
      simpa using this
    have hc : quboH o p.1 = c := congrArg Prod.fst hfp
    rw [← hc, hm, quboH]

theorem qubo_linear_coeff_is_neg_colsum_witness :
    ((-1 : ℝ), PauliOp.z 0) ∈ quboTerms (onesMatrix 2) ∧
    (-1 : ℝ) = -(∑ i in Finset.range (onesMatrix 2).rows,
      (onesMatrix 2).entry i 0) / 2 := by
  have hmem : ((-1 : ℝ), PauliOp.z 0) ∈ quboTerms (onesMatrix 2) := by
    have h : quboTerms (onesMatrix 2) =
        [(quboH (onesMatrix 2) 0, .z 0), (quboJ (onesMatrix 2) 0 1, .zz 0 1),
         (quboJ (onesMatrix 2) 1 0, .zz 1 0)] := rfl
    have h0 : quboH (onesMatrix 2) 0 = -1 := by
      norm_num [quboH, onesMatrix, Finset.sum_range_succ]
    rw [h, h0]
    exact List.mem_cons_self _ _
  exact ⟨hmem, qubo_linear_coeff_is_neg_colsum (onesMatrix 2) (-1) 0 hmem⟩

/-- C3 counterexample: with a constant feature column the feature's
self-covariance is 0, the correlation degenerates, and the `alpha = 0`
diagonal entry is 0, not 1 (the source produces NaN there). -/
theorem objective_matrix_diag_alpha_zero_cex :
    (objective_matrix [[(1 : ℝ)], [1]] [0, 1] 0).entry 0 0 ≠ 1 := by
  have hc : sampleCov (dataCol [[(1 : ℝ)], [1]] 0)
      (dataCol [[(1 : ℝ)], [1]] 0) = 0 := by
    norm_num [sampleCov, sampleMean, dataCol]
  have hcc : corrcoef (dataCol [[(1 : ℝ)], [1]] 0)
      (dataCol [[(1 : ℝ)], [1]] 0) = 0 := by
    rw [corrcoef, hc]
    simp
  norm_num [objective_matrix, hcc]

/-- C3 amended: for every feature column with positive sample variance, the
`alpha = 0` diagonal entry of `objective_matrix` is exactly 1 (the feature's
absolute self-correlation, scaled by `1 - alpha = 1`): self-correlation terms
are kept in the `k × k` redundancy block. -/
theorem objective_matrix_diag_alpha_zero (fd : List (List ℝ)) (rd : List ℝ)
    (a : ℕ) (hvar : 0 < sampleCov (dataCol fd a) (dataCol fd a)) :
    (objective_matrix fd rd 0).entry a a = 1 := by
  have hcc : corrcoef (dataCol fd a) (dataCol fd a) = 1 := by
    rw [corrcoef, Real.mul_self_sqrt hvar.le, div_self hvar.ne']
  simp [objective_matrix, hcc]

theorem objective_matrix_diag_alpha_zero_witness :
    0 < sampleCov (dataCol [[(0 : ℝ)], [1]] 0) (dataCol [[(0 : ℝ)], [1]] 0) ∧
    (objective_matrix [[(0 : ℝ)], [1]] [0, 0] 0).entry 0 0 = 1 := by
  have hvar : 0 < sampleCov (dataCol [[(0 : ℝ)], [1]] 0)
      (dataCol [[(0 : ℝ)], [1]] 0) := by
    norm_num [sampleCov, sampleMean, dataCol]
  exact ⟨hvar, objective_matrix_diag_alpha_zero [[(0 : ℝ)], [1]] [0, 0] 0 hvar⟩

/-- C6: with `alpha = 1` every diagonal entry of `objective_matrix` is minus
the absolute correlation of that feature with the response, and every
off-diagonal entry carries weight zero. -/
theorem objective_matrix_alpha_one (fd : List (List ℝ)) (rd : List ℝ) :
    (∀ a, (objective_matrix fd rd 1).entry a a =
      -|corrcoef rd (dataCol fd a)|) ∧
    (∀ a b, a ≠ b → (objective_matrix fd rd 1).entry a b = 0) := by
  constructor
  · intro a
    simp [objective_matrix]
  · intro a b hab
    simp [objective_matrix, hab]

theorem objective_matrix_alpha_one_witness :
    (0 : ℕ) ≠ 1 ∧
    (objective_matrix [[(0 : ℝ), 1], [1, 0]] [0, 1] 1).entry 0 1 = 0 :=
  ⟨by decide,
   (objective_matrix_alpha_one [[(0 : ℝ), 1], [1, 0]] [0, 1]).2 0 1 (by decide)⟩

/-- C7: with `alpha = 0` the objective matrix is a function of the feature
columns alone — any two response vectors give the same matrix. -/
theorem objective_matrix_alpha_zero_response_independent
    (fd : List (List ℝ)) (r1 r2 : List ℝ) :
    objective_matrix fd r1 0 = objective_matrix fd r2 0 := by
  simp only [objective_matrix, NDArray.mk.injEq, true_and]
  funext a b
  by_cases hab : a = b <;> simp [hab]

/-- C4 counterexample: on a dataset whose rows (and response entries) all
coincide, every bootstrap resample returns the same data, so two successive
`sample_hamiltonian` calls return identical Hamiltonians although `N = 2 > 1`. -/
theorem sample_hamiltonian_not_always_distinct :
    1 < constantProblem.n ∧
    (sample_hamiltonian constantProblem).2 =
      (sample_hamiltonian (sample_hamiltonian constantProblem).1).2 :=
  ⟨by decide, rfl⟩

/-- C4 amended: the Hamiltonian sequence is exactly reproducible — two
instances holding equal state produce the same sequence of Hamiltonians —
and successive calls do consume distinct PRNG subkeys; but the produced
Hamiltonians themselves need not differ when `N > 1`. -/
theorem sample_hamiltonian_reproducible (p q : FeatureSelectionProblem)
    (h1 : p.feature_data = q.feature_data)
    (h2 : p.response_data = q.response_data) (h3 : p.alpha = q.alpha)
    (h4 : p.key = q.key) (h5 : p.n = q.n) (h6 : p.k = q.k) (m : ℕ) :
    hamiltonianSeq p m = hamiltonianSeq q m ∧
    (prng_split p.key).2 ≠ (prng_split (sample_hamiltonian p).1.key).2 := by
  constructor
  · have hpq : p = q := by
      cases p
      cases q
      simp_all
    rw [hpq]
  · show (prng_split p.key).2 ≠ (prng_split (prng_split p.key).1).2
    simp only [prng_split]
    omega

theorem sample_hamiltonian_reproducible_witness :
    (constantProblem.feature_data = constantProblem.feature_data ∧
     constantProblem.response_data = constantProblem.response_data ∧
     constantProblem.alpha = constantProblem.alpha ∧
     constantProblem.key = constantProblem.key ∧
     constantProblem.n = constantProblem.n ∧
     constantProblem.k = constantProblem.k) ∧
    (hamiltonianSeq constantProblem 2 = hamiltonianSeq constantProblem 2 ∧
     (prng_split constantProblem.key).2 ≠
       (prng_split (sample_hamiltonian constantProblem).1.key).2) :=
  ⟨⟨rfl, rfl, rfl, rfl, rfl, rfl⟩,
   sample_hamiltonian_reproducible constantProblem constantProblem
     rfl rfl rfl rfl rfl rfl 2⟩

/-- C10: `sample_hamiltonian` replaces only the internal random key; the
data, `alpha` and shape fields of the instance state are unchanged, and the
state update is the same whether the remaining body returns a Hamiltonian or
an error. -/
theorem sample_hamiltonian_frame (p : FeatureSelectionProblem) :
    (sample_hamiltonian p).1.feature_data = p.feature_data ∧
    (sample_hamiltonian p).1.response_data = p.response_data ∧
    (sample_hamiltonian p).1.alpha = p.alpha ∧
    (sample_hamiltonian p).1.n = p.n ∧
    (sample_hamiltonian p).1.k = p.k ∧
    (sample_hamiltonian p).1.key = (prng_split p.key).1 :=
  ⟨rfl, rfl, rfl, rfl, rfl, rfl⟩

/-- C5 counterexample: with `n_layers = 0` the parameter vector is never
consumed (the reshape of the empty slice to `(0, 2)` succeeds and no layer
runs), so the circuit succeeds although the length 2 differs from the
reported parameter count `2·0 + 2·1 - 1 = 1`. -/
theorem ansatz_zero_layers_no_failure :
    ((([(0 : ℝ), 0]).length : ℤ) ≠ (feature_selection_ansatz 1 0).1) ∧
    isErr ((feature_selection_ansatz 1 0).2 [(0 : ℝ), 0]) = false := by
  constructor
  · norm_num [feature_selection_ansatz]
  · rfl

/-- C5 amended: `feature_selection_ansatz(n_var, n_layers)` reports the
parameter count `2·n_layers + 2·n_var - 1`, and for `n_layers ≥ 1` the
returned circuit fails on a flat parameter vector of any other length. -/
theorem feature_selection_ansatz_spec (k L T : ℕ) (hL : 0 < L)
    (params : List ℝ)
    (hlen : (params.length : ℤ) ≠ (feature_selection_ansatz k L T).1) :
    isErr ((feature_selection_ansatz k L T).2 params) = true ∧
    (feature_selection_ansatz k L T).1 = 2 * (L : ℤ) + 2 * (k : ℤ) - 1 := by
  refine ⟨?_, rfl⟩
  show isErr (state_circuit k L T params) = true
  by_cases hsmall : params.length < 2 * L
  · have hcond : ¬(min (2 * L) params.length = L * 2) := by
      omega
    simp [state_circuit, reshape2, hcond, isErr]
  · have hcond : min (2 * L) params.length = L * 2 := by
      omega
    obtain ⟨L', rfl⟩ : ∃ L', L = L' + 1 := ⟨L - 1, by omega⟩
    have hham : hamiltonian_ansatz (params.drop (2 * (L' + 1))) k =
        .error "hamiltonian_ansatz: wrong number of parameters" := by
      rw [hamiltonian_ansatz, if_neg]
      intro hEq
      apply hlen
      have hdrop : (params.drop (2 * (L' + 1))).length =
          params.length - 2 * (L' + 1) := by
        simp
      rw [hdrop] at hEq
      show (params.length : ℤ) = 2 * ((L' + 1 : ℕ) : ℤ) + 2 * (k : ℤ) - 1
      omega
    simp [state_circuit, reshape2, hcond, qml_layer, qaoa_layer, hham, isErr]

theorem feature_selection_ansatz_spec_witness :
    (0 < 1 ∧ ((([(0 : ℝ), 0]).length : ℤ) ≠ (feature_selection_ansatz 1 1 5).1)) ∧
    (isErr ((feature_selection_ansatz 1 1 5).2 [(0 : ℝ), 0]) = true ∧
     (feature_selection_ansatz 1 1 5).1 = 2 * (1 : ℤ) + 2 * (1 : ℤ) - 1) :=
  ⟨⟨by decide, by norm_num [feature_selection_ansatz]⟩,
   feature_selection_ansatz_spec 1 1 5 (by decide) [(0 : ℝ), 0]
     (by norm_num [feature_selection_ansatz])⟩

end QSO
